import Mathlib

/-! Travel recommendation search widget.

A shallow embedding of `src/travel_recommendation.js`.

* JavaScript strings are Lean `String`s, `===` on strings is equality
  (strings holding unpaired surrogates are outside the model).
* `String.prototype.toLowerCase` is a language built-in, not code of the
  repository: every definition that calls it takes it as the parameter
  `toLowerCase : String → String`, so the theorems hold for whatever the
  engine computes.  `asciiLower` is a concrete instance used for evaluation.
* `String.prototype.trim` is embedded concretely (`trim`), removing the
  ECMAScript white space and line terminator code points from both ends.
* The results container is a record of what the script can write: the markup
  last assigned through `innerHTML`, the elements appended with
  `appendChild` since then, and the inline `style.display`.
* The markup a card receives through `card.innerHTML` is kept as the string
  the script assigns; `renderedCard` reads it the way the browser does, with
  the tokenizer of the HTML standard embedded for text and tags (`tokStep`).
  Where the embedding does not follow the standard (character references,
  U+0000, carriage returns, comments) it answers `none`.
* The awaited `fetch` / `response.json()` pair is an explicit `FetchOutcome`
  handed to the handler; each click handler is one atomic state transition.
  `console.log` / `console.error` calls have no effect on the page and are
  left out.
-/

namespace TravelRecommendation

/-! ## Data model -/

/-- A record `{name, imageUrl, description}` (a city, a temple or a beach). -/
structure Place where
  name : String
  imageUrl : String
  description : String
deriving DecidableEq, Repr

/-- A country `{name, cities}`. -/
structure Country where
  name : String
  cities : List Place
deriving DecidableEq, Repr

/-- The JSON document `travel_recommendation_api.json`. -/
structure Dataset where
  countries : List Country
  temples : List Place
  beaches : List Place
deriving DecidableEq, Repr

/-- An element created by `document.createElement('div')`, with the class
added through `classList.add` and the markup assigned to its `innerHTML`. -/
structure Card where
  className : String
  innerHTML : String
deriving DecidableEq, Repr

/-- The element `#searchResults`: `innerHTML` is the markup last assigned
through the `innerHTML` setter, `children` the elements appended by
`appendChild` after that assignment, `display` the inline `style.display`. -/
structure Container where
  innerHTML : String
  children : List Card
  display : String
deriving DecidableEq, Repr

/-- The page state the script reads and writes: `searchInput.value`, the
results container, and the number of `fetch` calls issued so far. -/
structure Page where
  searchInput : String
  resultsContainer : Container
  fetches : Nat
deriving DecidableEq, Repr

/-- What `await fetch(...)` followed by `await response.json()` can give:
the request is rejected, the response has `ok = false`, the body is not
JSON, or the dataset arrives. -/
inductive FetchOutcome where
  | rejected : FetchOutcome
  | notOk (status : Nat) : FetchOutcome
  | badJson : FetchOutcome
  | ok (data : Dataset) : FetchOutcome
deriving DecidableEq, Repr

/-! ## Built-ins -/

/-- ECMAScript `WhiteSpace` and `LineTerminator` code points, the ones
`String.prototype.trim` strips. -/
def isWhiteSpace (c : Char) : Bool :=
  let n := c.toNat
  n == 0x09 || n == 0x0A || n == 0x0B || n == 0x0C || n == 0x0D || n == 0x20 ||
  n == 0xA0 || n == 0x1680 || (0x2000 ≤ n && n ≤ 0x200A) || n == 0x2028 ||
  n == 0x2029 || n == 0x202F || n == 0x205F || n == 0x3000 || n == 0xFEFF

/-- Embedding of `String.prototype.trim`. -/
def trim (s : String) : String :=
  ⟨((s.data.dropWhile isWhiteSpace).reverse.dropWhile isWhiteSpace).reverse⟩

/-- A string that is empty or made of white space only. -/
def isBlank (s : String) : Bool :=
  s.data.all isWhiteSpace

/-- The first character of the string is white space. -/
def startsWithWhiteSpace (s : String) : Bool :=
  match s.data.head? with
  | some c => isWhiteSpace c
  | none => false

/-- The last character of the string is white space. -/
def endsWithWhiteSpace (s : String) : Bool :=
  match s.data.getLast? with
  | some c => isWhiteSpace c
  | none => false

/-- Lower-casing of one ASCII letter; every other character is kept. -/
def asciiLowerChar (c : Char) : Char :=
  if 65 ≤ c.toNat ∧ c.toNat ≤ 90 then Char.ofNat (c.toNat + 32) else c

/-- A concrete lower-casing function (ASCII letters only), an instance of the
`toLowerCase` parameter used to evaluate the definitions. -/
def asciiLower (s : String) : String :=
  ⟨s.data.map asciiLowerChar⟩

/-- What the proofs about padded terms need from `toLowerCase`: it neither
creates nor removes white space at either end of a string. -/
structure KeepsEdgeWhiteSpace (toLowerCase : String → String) : Prop where
  head : ∀ s, startsWithWhiteSpace (toLowerCase s) = startsWithWhiteSpace s
  last : ∀ s, endsWithWhiteSpace (toLowerCase s) = endsWithWhiteSpace s

/-! ## The script -/

/-- The markup of the generic error message (lines 87-88). -/
def errorMessage : String :=
  "<p class=\"error-message\">Sorry, there was an \n            issue retrieving the data. Please try again later.</p>"

/-- The markup of the static "no results" message (lines 101-103). -/
def noResultsMessage : String :=
  "<p class=\"no-results-message\">\n            No results found. Try searching for \"countries\", \"temples\",\n             \"beaches\", or a specific country.</p>"

/-- The template literal `cardContent` (lines 115-121). -/
def cardContent (item : Place) : String :=
  "\n                <img src=\"" ++ item.imageUrl ++ "\" alt=\"" ++ item.name ++
  "\" onerror=\"this.src=\x27https://placehold.co/600x400/000000/FFFFFF?text=Image+Not+Found\x27\" />\n                <div class=\"card-text\">\n                    <h2>" ++
  item.name ++ "</h2>\n                    <p>" ++ item.description ++
  "</p>\n                </div>\n            "

/-- The card built for one record (lines 109-122). -/
def createCard (item : Place) : Card :=
  ⟨"result-card", cardContent item⟩

/-- Assignment `resultsContainer.innerHTML = html`: the new markup replaces
everything the container held. -/
def setInnerHTML (html : String) (c : Container) : Container :=
  ⟨html, [], c.display⟩

/-- Assignment `resultsContainer.style.display = d`. -/
def setDisplay (d : String) (c : Container) : Container :=
  ⟨c.innerHTML, c.children, d⟩

/-- Call `resultsContainer.appendChild(card)`. -/
def appendChild (c : Container) (card : Card) : Container :=
  ⟨c.innerHTML, c.children ++ [card], c.display⟩

/-- `clearResults` (lines 130-134). -/
def clearResults (c : Container) : Container :=
  setDisplay "none" (setInnerHTML "" c)

/-- `displayResults` (lines 93-127). -/
def displayResults (results : List Place) (c : Container) : Container :=
  let c1 := clearResults c
  let c2 := setDisplay "flex" c1
  if results.length = 0 then
    setInnerHTML noResultsMessage c2
  else
    results.foldl (fun acc item => appendChild acc (createCard item)) c2

/-- The value of `results` when `displayResults(results)` is reached
(lines 53-78 of `searchTravelData`). -/
def searchResults (toLowerCase : String → String) (data : Dataset)
    (searchTerm : String) : List Place :=
  let normalizedSearchTerm := toLowerCase searchTerm
  if normalizedSearchTerm = "countries" ∨ normalizedSearchTerm = "country" then
    data.countries.foldl (fun results country => results ++ country.cities) []
  else if normalizedSearchTerm = "temples" ∨ normalizedSearchTerm = "temple" then
    data.temples
  else if normalizedSearchTerm = "beaches" ∨ normalizedSearchTerm = "beach" then
    data.beaches
  else
    match data.countries.find? (fun c => toLowerCase c.name == normalizedSearchTerm) with
    | some country => country.cities
    | none => []

/-- `searchTravelData` (lines 37-90): one fetch, then either the rendering
of the results or the `catch` branch. -/
def searchTravelData (toLowerCase : String → String) (outcome : FetchOutcome)
    (searchTerm : String) (p : Page) : Page :=
  let p1 : Page := ⟨p.searchInput, p.resultsContainer, p.fetches + 1⟩
  match outcome with
  | FetchOutcome.ok data =>
      ⟨p1.searchInput,
        displayResults (searchResults toLowerCase data searchTerm) p1.resultsContainer,
        p1.fetches⟩
  | _ =>
      ⟨p1.searchInput, setInnerHTML errorMessage (clearResults p1.resultsContainer),
        p1.fetches⟩

/-- The click handler of `#searchBtn` (lines 11-27). -/
def searchClick (toLowerCase : String → String) (outcome : FetchOutcome)
    (p : Page) : Page :=
  let searchTerm := p.searchInput
  if trim searchTerm = "" then
    ⟨p.searchInput, clearResults p.resultsContainer, p.fetches⟩
  else
    searchTravelData toLowerCase outcome searchTerm p

/-- The click handler of `#resetBtn` (lines 30-33). -/
def resetClick (p : Page) : Page :=
  let p1 : Page := ⟨p.searchInput, clearResults p.resultsContainer, p.fetches⟩
  ⟨"", p1.resultsContainer, p1.fetches⟩

/-- The user actions on the page; a search carries the outcome its fetch
would have. -/
inductive Op where
  | typeText (s : String) : Op
  | search (outcome : FetchOutcome) : Op
  | reset : Op
deriving DecidableEq, Repr

/-- One user action. -/
def step (toLowerCase : String → String) (p : Page) : Op → Page
  | Op.typeText s => ⟨s, p.resultsContainer, p.fetches⟩
  | Op.search outcome => searchClick toLowerCase outcome p
  | Op.reset => resetClick p

/-- A sequence of user actions, first to last. -/
def run (toLowerCase : String → String) (ops : List Op) (p : Page) : Page :=
  ops.foldl (step toLowerCase) p

/-- The page as loaded, with the results container cleared. -/
def initialPage : Page :=
  ⟨"", ⟨"", [], "none"⟩, 0⟩

/-- The container holds something: markup or appended elements. -/
def hasContent (c : Container) : Bool :=
  c.innerHTML != "" || !c.children.isEmpty

/-- The container is shown. -/
def isShown (c : Container) : Bool :=
  c.display != "none"

/-! ## Sample data -/

def tokyo : Place := ⟨"Tokyo", "tokyo.jpg", "Capital of Japan"⟩
def kyoto : Place := ⟨"Kyoto", "kyoto.jpg", "Old capital"⟩
def sydney : Place := ⟨"Sydney", "sydney.jpg", "Harbour city"⟩
def angkor : Place := ⟨"Angkor Wat", "angkor.jpg", "Temple complex"⟩
def bondi : Place := ⟨"Bondi Beach", "bondi.jpg", "Surf beach"⟩

def sampleData : Dataset :=
  ⟨[⟨"Australia", [sydney]⟩, ⟨"Japan", [tokyo, kyoto]⟩], [angkor], [bondi]⟩

/-- Two countries whose names differ only in case. -/
def twinData : Dataset :=
  ⟨[⟨"Japan", [tokyo]⟩, ⟨"japan", [kyoto]⟩], [angkor], [bondi]⟩

/-- A country whose name is a category word. -/
def templeLand : Dataset :=
  ⟨[⟨"Temple", [kyoto]⟩], [angkor], [bondi]⟩

/-- A page left by an earlier search: text in the field, two cards shown. -/
def usedPage : Page :=
  ⟨"Japan", ⟨"", [createCard tokyo, createCard kyoto], "flex"⟩, 1⟩

/-- The six category words of the dispatcher (lines 59, 64 and 67). -/
def isCategoryToken (s : String) : Bool :=
  s = "countries" || s = "country" || s = "temples" || s = "temple" ||
  s = "beaches" || s = "beach"

/-- The fetch did not deliver a dataset. -/
def FetchOutcome.failed : FetchOutcome → Bool
  | FetchOutcome.ok _ => false
  | _ => true

/-- The action is a search whose fetch does not deliver a dataset. -/
def Op.fetchFails : Op → Bool
  | Op.search outcome => outcome.failed
  | _ => false

/-! ## The markup parser behind `innerHTML` -/

/-- A tag token of the HTML tokenizer: start or end tag, lower-cased name,
attributes in source order (a repeated name keeps its first value), and the
self-closing flag. -/
structure TagToken where
  isEnd : Bool
  name : List Char
  attrs : List (List Char × List Char)
  selfClosing : Bool
deriving DecidableEq, Repr

/-- The output of the tokenizer: tag tokens, and between them the run of
character tokens (possibly empty) as one text token. -/
inductive Token where
  | text (cs : List Char) : Token
  | tag (t : TagToken) : Token
deriving DecidableEq, Repr

/-- The tokenizer states of the HTML standard (section 13.2.5) that markup
made of text and tags goes through.  `data`, `tagOpen` and `endTagOpen` carry
the text read since the last tag; the attribute states carry the tag under
construction, the attribute name and the attribute value read so far. -/
inductive TokState where
  | data (buf : List Char) : TokState
  | tagOpen (buf : List Char) : TokState
  | endTagOpen (buf : List Char) : TokState
  | tagName (t : TagToken) : TokState
  | beforeAttrName (t : TagToken) : TokState
  | attrName (t : TagToken) (n : List Char) : TokState
  | afterAttrName (t : TagToken) (n : List Char) : TokState
  | beforeAttrValue (t : TagToken) (n : List Char) : TokState
  | attrValueDouble (t : TagToken) (n v : List Char) : TokState
  | attrValueSingle (t : TagToken) (n v : List Char) : TokState
  | attrValueUnquoted (t : TagToken) (n v : List Char) : TokState
  | afterAttrValueQuoted (t : TagToken) : TokState
  | selfClosingStartTag (t : TagToken) : TokState
deriving DecidableEq, Repr

/-- Tab, line feed, form feed and space: the white space of the tokenizer. -/
def isTokSpace (c : Char) : Bool :=
  c.toNat == 0x09 || c.toNat == 0x0A || c.toNat == 0x0C || c.toNat == 0x20

/-- ASCII letters. -/
def isAsciiAlpha (c : Char) : Bool :=
  (65 ≤ c.toNat && c.toNat ≤ 90) || (97 ≤ c.toNat && c.toNat ≤ 122)

/-- The character U+0022 QUOTATION MARK. -/
def doubleQuote : Char := Char.ofNat 0x22

/-- The character U+0027 APOSTROPHE. -/
def singleQuote : Char := Char.ofNat 0x27

/-- The attribute being read is added to the tag, unless the tag already has
an attribute of that name, in which case it is dropped. -/
def commitAttr (t : TagToken) (n v : List Char) : TagToken :=
  if t.attrs.any (fun a => a.1 = n) then t
  else ⟨t.isEnd, t.name, t.attrs ++ [(n, v)], t.selfClosing⟩

/-- The tag token is emitted and the tokenizer returns to the data state. -/
def emitTag (t : TagToken) : Option (TokState × List Token) :=
  some (TokState.data [], [Token.tag t])

/-- Data state. -/
def stepData (buf : List Char) (c : Char) : Option (TokState × List Token) :=
  if c = '&' then none
  else if c = '<' then some (TokState.tagOpen buf, [])
  else some (TokState.data (buf ++ [c]), [])

/-- Before attribute name state (with the after attribute name state it
reconsumes `/` and `>` in). -/
def stepBeforeAttrName (t : TagToken) (c : Char) : Option (TokState × List Token) :=
  if isTokSpace c then some (TokState.beforeAttrName t, [])
  else if c = '/' then some (TokState.selfClosingStartTag t, [])
  else if c = '>' then emitTag t
  else if c = '=' then some (TokState.attrName t ['='], [])
  else some (TokState.attrName t [asciiLowerChar c], [])

/-- Attribute value (unquoted) state. -/
def stepAttrValueUnquoted (t : TagToken) (n v : List Char) (c : Char) :
    Option (TokState × List Token) :=
  if isTokSpace c then some (TokState.beforeAttrName (commitAttr t n v), [])
  else if c = '&' then none
  else if c = '>' then emitTag (commitAttr t n v)
  else some (TokState.attrValueUnquoted t n (v ++ [c]), [])

/-- One step of the HTML tokenizer on the next input character; a state that
reconsumes the character continues with the step of the state it switches
to.  The result is `none` where the model does not follow the standard:
character references (`&` in text or in an attribute value), U+0000 and
carriage return (altered before tokenization), comments, doctypes and
processing instructions (`<!`, `<?`, `</` before a character that is
neither a letter nor `>`). -/
def tokStep (st : TokState) (c : Char) : Option (TokState × List Token) :=
  if c.toNat = 0 ∨ c.toNat = 0x0D then none
  else
    match st with
    | TokState.data buf => stepData buf c
    | TokState.tagOpen buf =>
        if c = '!' ∨ c = '?' then none
        else if c = '/' then some (TokState.endTagOpen buf, [])
        else if isAsciiAlpha c then
          some (TokState.tagName ⟨false, [asciiLowerChar c], [], false⟩, [Token.text buf])
        else stepData (buf ++ ['<']) c
    | TokState.endTagOpen buf =>
        if isAsciiAlpha c then
          some (TokState.tagName ⟨true, [asciiLowerChar c], [], false⟩, [Token.text buf])
        else if c = '>' then some (TokState.data buf, [])
        else none
    | TokState.tagName t =>
        if isTokSpace c then some (TokState.beforeAttrName t, [])
        else if c = '/' then some (TokState.selfClosingStartTag t, [])
        else if c = '>' then emitTag t
        else some (TokState.tagName ⟨t.isEnd, t.name ++ [asciiLowerChar c], t.attrs,
          t.selfClosing⟩, [])
    | TokState.beforeAttrName t => stepBeforeAttrName t c
    | TokState.attrName t n =>
        if isTokSpace c then some (TokState.afterAttrName t n, [])
        else if c = '/' then some (TokState.selfClosingStartTag (commitAttr t n []), [])
        else if c = '>' then emitTag (commitAttr t n [])
        else if c = '=' then some (TokState.beforeAttrValue t n, [])
        else some (TokState.attrName t (n ++ [asciiLowerChar c]), [])
    | TokState.afterAttrName t n =>
        if isTokSpace c then some (TokState.afterAttrName t n, [])
        else if c = '/' then some (TokState.selfClosingStartTag (commitAttr t n []), [])
        else if c = '=' then some (TokState.beforeAttrValue t n, [])
        else if c = '>' then emitTag (commitAttr t n [])
        else some (TokState.attrName (commitAttr t n []) [asciiLowerChar c], [])
    | TokState.beforeAttrValue t n =>
        if isTokSpace c then some (TokState.beforeAttrValue t n, [])
        else if c = doubleQuote then some (TokState.attrValueDouble t n [], [])
        else if c = singleQuote then some (TokState.attrValueSingle t n [], [])
        else if c = '>' then emitTag (commitAttr t n [])
        else stepAttrValueUnquoted t n [] c
    | TokState.attrValueDouble t n v =>
        if c = doubleQuote then some (TokState.afterAttrValueQuoted (commitAttr t n v), [])
        else if c = '&' then none
        else some (TokState.attrValueDouble t n (v ++ [c]), [])
    | TokState.attrValueSingle t n v =>
        if c = singleQuote then some (TokState.afterAttrValueQuoted (commitAttr t n v), [])
        else if c = '&' then none
        else some (TokState.attrValueSingle t n (v ++ [c]), [])
    | TokState.attrValueUnquoted t n v => stepAttrValueUnquoted t n v c
    | TokState.afterAttrValueQuoted t =>
        if isTokSpace c then some (TokState.beforeAttrName t, [])
        else if c = '/' then some (TokState.selfClosingStartTag t, [])
        else if c = '>' then emitTag t
        else stepBeforeAttrName t c
    | TokState.selfClosingStartTag t =>
        if c = '>' then emitTag ⟨t.isEnd, t.name, t.attrs, true⟩
        else stepBeforeAttrName t c

/-- The tokenizer run over a piece of input: the state reached and the
tokens emitted on the way. -/
def tokRun (st : TokState) : List Char → Option (TokState × List Token)
  | [] => some (st, [])
  | c :: cs =>
    match tokStep st c with
    | none => none
    | some (st1, out1) =>
      match tokRun st1 cs with
      | none => none
      | some (st2, out2) => some (st2, out1 ++ out2)

/-- End of input: pending text is emitted, an unfinished tag is dropped. -/
def tokFinish : TokState → List Token
  | TokState.data buf => [Token.text buf]
  | TokState.tagOpen buf => [Token.text (buf ++ ['<'])]
  | TokState.endTagOpen buf => [Token.text (buf ++ ['<', '/'])]
  | _ => []

/-- The token sequence of a piece of markup. -/
def tokenize (markup : String) : Option (List Token) :=
  match tokRun (TokState.data []) markup.data with
  | none => none
  | some (st, out) => some (out ++ tokFinish st)

/-- The value of the first attribute called `n`. -/
def attrValue (n : String) (t : TagToken) : Option String :=
  match t.attrs.find? (fun a => a.1 = n.data) with
  | some a => some ⟨a.2⟩
  | none => none

/-- The token is the start tag of the element `n`. -/
def isStartOf (n : String) (t : TagToken) : Bool :=
  !t.isEnd && t.name = n.data

/-- The token is the end tag of the element `n`. -/
def isEndOf (n : String) (t : TagToken) : Bool :=
  t.isEnd && t.name = n.data

/-- What a card shows: the `src` and `alt` attributes of its image, the text
of its `h2` title and the text of its `p` description. -/
structure CardView where
  src : Option String
  alt : Option String
  title : String
  description : String
deriving DecidableEq, Repr

/-- The view of a card whose tokens are, with text in between, an `img`, a
`div` holding an `h2` with one text and a `p` with one text: for such a
token sequence the tree built is the image followed by the `div` with these
two children.  Any other token sequence gives `none`. -/
def cardViewOfTokens : List Token → Option CardView
  | [Token.text _, Token.tag img, Token.text _, Token.tag dv, Token.text _, Token.tag h,
      Token.text title, Token.tag hEnd, Token.text _, Token.tag p, Token.text description,
      Token.tag pEnd, Token.text _, Token.tag dvEnd, Token.text _] =>
    if isStartOf "img" img && isStartOf "div" dv && isStartOf "h2" h && isEndOf "h2" hEnd &&
        isStartOf "p" p && isEndOf "p" pEnd && isEndOf "div" dvEnd then
      some ⟨attrValue "src" img, attrValue "alt" img, ⟨title⟩, ⟨description⟩⟩
    else none
  | _ => none

/-- The view of the card the browser builds from the markup assigned to
`card.innerHTML`. -/
def renderedCard (markup : String) : Option CardView :=
  match tokenize markup with
  | some tokens => cardViewOfTokens tokens
  | none => none

/-- The string can stand in a double-quoted attribute value unchanged. -/
def attrSafe (s : String) : Bool :=
  s.data.all (fun c => c != doubleQuote && c != '&' && c.toNat != 0 && c.toNat != 0x0D)

/-- The string can stand as element text unchanged. -/
def textSafe (s : String) : Bool :=
  s.data.all (fun c => c != '<' && c != '&' && c.toNat != 0 && c.toNat != 0x0D)

/-- A record whose name holds a quotation mark. -/
def quoted : Place := ⟨"A \"B\"", "a.jpg", "Quoted name"⟩

/-- A record whose name holds the start of a tag. -/
def angled : Place := ⟨"a<b", "a.jpg", "Angled name"⟩

/-! ## Auxiliary lemmas -/

set_option maxRecDepth 100000

theorem foldl_concat_cities (cs : List Country) (acc : List Place) :
    cs.foldl (fun results country => results ++ country.cities) acc
      = acc ++ (cs.map Country.cities).flatten := by
  induction cs generalizing acc with
  | nil => simp
  | cons c cs ih => simp [List.foldl_cons, ih, List.append_assoc]

theorem foldl_appendChild (results : List Place) (c : Container) :
    results.foldl (fun acc item => appendChild acc (createCard item)) c
      = ⟨c.innerHTML, c.children ++ results.map createCard, c.display⟩ := by
  induction results generalizing c with
  | nil => simp
  | cons r rs ih =>
    rw [List.foldl_cons, ih]
    simp [appendChild, List.append_assoc]

theorem dropWhile_eq_nil_iff_all (p : Char → Bool) (l : List Char) :
    l.dropWhile p = [] ↔ l.all p = true := by
  induction l with
  | nil => simp
  | cons a l ih =>
    by_cases h : p a = true
    · simp [List.dropWhile_cons, h, ih]
    · simp [List.dropWhile_cons, h]

theorem trim_eq_empty_iff (s : String) : trim s = "" ↔ isBlank s = true := by
  unfold trim isBlank
  constructor
  · intro h
    have h1 : ((s.data.dropWhile isWhiteSpace).reverse.dropWhile isWhiteSpace).reverse = [] := by
      have := congrArg String.data h
      simpa using this
    rw [List.reverse_eq_nil_iff, dropWhile_eq_nil_iff_all, List.all_reverse,
      ← dropWhile_eq_nil_iff_all] at h1
    have h2 : (s.data.dropWhile isWhiteSpace).dropWhile isWhiteSpace = [] := h1
    rw [List.dropWhile_idempotent] at h2
    exact (dropWhile_eq_nil_iff_all _ _).1 h2
  · intro h
    have h1 : s.data.dropWhile isWhiteSpace = [] := (dropWhile_eq_nil_iff_all _ _).2 h
    rw [h1]
    rfl

theorem toNat_ofNat_small (n : Nat) (h : n < 0xd800) : (Char.ofNat n).toNat = n := by
  have hv : n.isValidChar := Or.inl h
  simp [Char.ofNat, hv, Char.ofNatAux, Char.toNat]
  rfl

theorem isWhiteSpace_asciiLowerChar (c : Char) :
    isWhiteSpace (asciiLowerChar c) = isWhiteSpace c := by
  unfold asciiLowerChar
  split
  · rename_i h
    have h1 : (Char.ofNat (c.toNat + 32)).toNat = c.toNat + 32 :=
      toNat_ofNat_small _ (by omega)
    have h2 : isWhiteSpace c = false := by
      simp only [isWhiteSpace, Bool.or_eq_false_iff, Bool.and_eq_false_iff, beq_eq_false_iff_ne,
        decide_eq_false_iff_not]
      omega
    have h3 : isWhiteSpace (Char.ofNat (c.toNat + 32)) = false := by
      simp only [isWhiteSpace, h1, Bool.or_eq_false_iff, Bool.and_eq_false_iff,
        beq_eq_false_iff_ne, decide_eq_false_iff_not]
      omega
    rw [h2, h3]
  · rfl

theorem asciiLower_keepsEdgeWhiteSpace : KeepsEdgeWhiteSpace asciiLower := by
  constructor
  · intro s
    unfold startsWithWhiteSpace asciiLower
    simp only [List.head?_map]
    cases s.data.head? with
    | none => rfl
    | some c => exact isWhiteSpace_asciiLowerChar c
  · intro s
    unfold endsWithWhiteSpace asciiLower
    simp only [List.getLast?_map]
    cases s.data.getLast? with
    | none => rfl
    | some c => exact isWhiteSpace_asciiLowerChar c

theorem find?_first_match (f : Country → Bool) (pre : List Country) (c : Country)
    (post : List Country) (hpre : ∀ d ∈ pre, f d = false) (hc : f c = true) :
    (pre ++ c :: post).find? f = some c := by
  induction pre with
  | nil => simp [hc]
  | cons d pre ih =>
    have hd : f d = false := hpre d (List.mem_cons_self _ _)
    have hrest : ∀ e ∈ pre, f e = false := fun e he => hpre e (List.mem_cons_of_mem _ he)
    simp [List.find?_cons, hd, ih hrest]

theorem searchResults_of_no_category (toLowerCase : String → String) (data : Dataset)
    (searchTerm : String) (hcat : isCategoryToken (toLowerCase searchTerm) = false) :
    searchResults toLowerCase data searchTerm =
      match data.countries.find? (fun c => toLowerCase c.name == toLowerCase searchTerm) with
      | some country => country.cities
      | none => [] := by
  simp only [isCategoryToken, Bool.or_eq_false_iff, decide_eq_false_iff_not] at hcat
  obtain ⟨⟨⟨⟨⟨h1, h2⟩, h3⟩, h4⟩, h5⟩, h6⟩ := hcat
  simp [searchResults, h1, h2, h3, h4, h5, h6]

theorem displayResults_nil (c : Container) :
    displayResults [] c = ⟨noResultsMessage, [], "flex"⟩ := by
  simp [displayResults, setInnerHTML, setDisplay, clearResults]

theorem displayResults_of_ne_nil (results : List Place) (c : Container)
    (h : results ≠ []) :
    displayResults results c = ⟨"", results.map createCard, "flex"⟩ := by
  have hlen : results.length ≠ 0 := fun h0 => h (List.length_eq_zero.mp h0)
  simp [displayResults, hlen, foldl_appendChild, setInnerHTML, setDisplay, clearResults]

theorem tokRun_append (st : TokState) (a b : List Char) :
    tokRun st (a ++ b) =
      match tokRun st a with
      | none => none
      | some (st1, out1) =>
        match tokRun st1 b with
        | none => none
        | some (st2, out2) => some (st2, out1 ++ out2) := by
  induction a generalizing st with
  | nil =>
    simp only [List.nil_append, tokRun]
    cases tokRun st b with
    | none => rfl
    | some r => simp
  | cons c a ih =>
    rw [List.cons_append]
    simp only [tokRun]
    cases hstep : tokStep st c with
    | none => rfl
    | some r =>
      obtain ⟨st1, out1⟩ := r
      simp only []
      rw [ih st1]
      cases tokRun st1 a with
      | none => rfl
      | some r1 =>
        obtain ⟨st2, out2⟩ := r1
        simp only []
        cases tokRun st2 b with
        | none => rfl
        | some r2 => simp [List.append_assoc]

theorem tokRun_seq {st st1 st2 : TokState} {a b : List Char} {out1 out2 : List Token}
    (ha : tokRun st a = some (st1, out1)) (hb : tokRun st1 b = some (st2, out2)) :
    tokRun st (a ++ b) = some (st2, out1 ++ out2) := by
  rw [tokRun_append, ha]
  simp only [hb]

theorem tokRun_text (buf cs : List Char)
    (h : cs.all (fun c => c != '<' && c != '&' && c.toNat != 0 && c.toNat != 0x0D) = true) :
    tokRun (TokState.data buf) cs = some (TokState.data (buf ++ cs), []) := by
  induction cs generalizing buf with
  | nil => simp [tokRun]
  | cons c cs ih =>
    simp only [List.all_cons, Bool.and_eq_true, bne_iff_ne, ne_eq] at h
    obtain ⟨⟨⟨⟨h1, h2⟩, h3⟩, h4⟩, hrest⟩ := h
    have hs : tokStep (TokState.data buf) c = some (TokState.data (buf ++ [c]), []) := by
      simp [tokStep, stepData, h1, h2, h3, h4]
    simp only [tokRun, hs, ih (buf ++ [c]) hrest, List.append_assoc, List.singleton_append,
      List.nil_append]

theorem tokRun_attrValueDouble (t : TagToken) (n v cs : List Char)
    (h : cs.all (fun c => c != doubleQuote && c != '&' && c.toNat != 0 && c.toNat != 0x0D)
      = true) :
    tokRun (TokState.attrValueDouble t n v) cs
      = some (TokState.attrValueDouble t n (v ++ cs), []) := by
  induction cs generalizing v with
  | nil => simp [tokRun]
  | cons c cs ih =>
    simp only [List.all_cons, Bool.and_eq_true, bne_iff_ne, ne_eq] at h
    obtain ⟨⟨⟨⟨h1, h2⟩, h3⟩, h4⟩, hrest⟩ := h
    have hs : tokStep (TokState.attrValueDouble t n v) c
        = some (TokState.attrValueDouble t n (v ++ [c]), []) := by
      simp [tokStep, h1, h2, h3, h4]
    simp only [tokRun, hs, ih (v ++ [c]) hrest, List.append_assoc, List.singleton_append,
      List.nil_append]

theorem tokRun_imgOpen :
    tokRun (TokState.data []) "\n                <img src=\"".data
      = some (TokState.attrValueDouble ⟨false, "img".data, [], false⟩ "src".data [],
          [Token.text "\n                ".data]) := by
  decide

theorem tokRun_altOpen (t : TagToken) (n v : List Char) :
    tokRun (TokState.attrValueDouble t n v) "\" alt=\"".data
      = some (TokState.attrValueDouble (commitAttr t n v) "alt".data [], []) := by
  rfl

theorem tokRun_toTitle (t : TagToken) (n v : List Char) :
    tokRun (TokState.attrValueDouble t n v)
      "\" onerror=\"this.src=\x27https://placehold.co/600x400/000000/FFFFFF?text=Image+Not+Found\x27\" />\n                <div class=\"card-text\">\n                    <h2>".data
      = some (TokState.data [],
          [Token.tag ⟨(commitAttr (commitAttr t n v) "onerror".data
              "this.src=\x27https://placehold.co/600x400/000000/FFFFFF?text=Image+Not+Found\x27".data).isEnd,
            (commitAttr (commitAttr t n v) "onerror".data
              "this.src=\x27https://placehold.co/600x400/000000/FFFFFF?text=Image+Not+Found\x27".data).name,
            (commitAttr (commitAttr t n v) "onerror".data
              "this.src=\x27https://placehold.co/600x400/000000/FFFFFF?text=Image+Not+Found\x27".data).attrs,
            true⟩,
           Token.text "\n                ".data,
           Token.tag ⟨false, "div".data, [("class".data, "card-text".data)], false⟩,
           Token.text "\n                    ".data,
           Token.tag ⟨false, "h2".data, [], false⟩]) := by
  rfl

theorem tokRun_toDescription (buf : List Char) :
    tokRun (TokState.data buf) "</h2>\n                    <p>".data
      = some (TokState.data [],
          [Token.text buf, Token.tag ⟨true, "h2".data, [], false⟩,
           Token.text "\n                    ".data, Token.tag ⟨false, "p".data, [], false⟩]) := by
  rfl

theorem tokRun_toEnd (buf : List Char) :
    tokRun (TokState.data buf) "</p>\n                </div>\n            ".data
      = some (TokState.data "\n            ".data,
          [Token.text buf, Token.tag ⟨true, "p".data, [], false⟩,
           Token.text "\n                ".data, Token.tag ⟨true, "div".data, [], false⟩]) := by
  rfl

theorem renderedCard_cardContent (item : Place)
    (hurl : attrSafe item.imageUrl = true)
    (hnameA : attrSafe item.name = true) (hnameT : textSafe item.name = true)
    (hdesc : textSafe item.description = true) :
    renderedCard (cardContent item)
      = some ⟨some item.imageUrl, some item.name, item.name, item.description⟩ := by
  have e1 := tokRun_seq tokRun_imgOpen (tokRun_attrValueDouble _ _ [] item.imageUrl.data hurl)
  have e2 := tokRun_seq e1 (tokRun_altOpen _ _ _)
  have e3 := tokRun_seq e2 (tokRun_attrValueDouble _ _ [] item.name.data hnameA)
  have e4 := tokRun_seq e3 (tokRun_toTitle _ _ _)
  have e5 := tokRun_seq e4 (tokRun_text [] item.name.data hnameT)
  have e6 := tokRun_seq e5 (tokRun_toDescription _)
  have e7 := tokRun_seq e6 (tokRun_text [] item.description.data hdesc)
  have e8 := tokRun_seq e7 (tokRun_toEnd _)
  unfold renderedCard tokenize cardContent
  simp only [String.data_append]
  rw [e8]
  simp [tokFinish, cardViewOfTokens, isStartOf, isEndOf, attrValue, commitAttr]

/-! ## The dispatcher -/

/-- C1: when the lower-cased search term is exactly "countries" or "country",
the sequence handed to `displayResults` is the concatenation, in source order,
of the `cities` of every country of the dataset, whatever the countries are
called. -/
theorem searchTravelData_countries (toLowerCase : String → String) (data : Dataset)
    (searchTerm : String) (p : Page)
    (h : toLowerCase searchTerm = "countries" ∨ toLowerCase searchTerm = "country") :
    searchResults toLowerCase data searchTerm = (data.countries.map Country.cities).flatten ∧
    searchTravelData toLowerCase (FetchOutcome.ok data) searchTerm p =
      ⟨p.searchInput,
        displayResults ((data.countries.map Country.cities).flatten) p.resultsContainer,
        p.fetches + 1⟩ := by
  have hres : searchResults toLowerCase data searchTerm
      = (data.countries.map Country.cities).flatten := by
    simp only [searchResults, h, if_true, foldl_concat_cities, List.nil_append]
  exact ⟨hres, by simp only [searchTravelData, hres]⟩

/-- C1 at a dataset one of whose countries is itself called "Country". -/
theorem searchTravelData_countries_witness :
    (asciiLower "COUNTRY" = "countries" ∨ asciiLower "COUNTRY" = "country") ∧
    searchResults asciiLower ⟨[⟨"Country", [sydney]⟩, ⟨"Japan", [tokyo, kyoto]⟩], [angkor], [bondi]⟩
      "COUNTRY" = [sydney, tokyo, kyoto] :=
  ⟨by decide,
    (searchTravelData_countries asciiLower
      ⟨[⟨"Country", [sydney]⟩, ⟨"Japan", [tokyo, kyoto]⟩], [angkor], [bondi]⟩
      "COUNTRY" usedPage (by decide)).1⟩

/-- C2: when the lower-cased search term is exactly "temples" or "temple" the
result sequence is `data.temples`, and when it is exactly "beaches" or "beach"
it is `data.beaches`, unchanged, whatever the countries are called. -/
theorem searchTravelData_temples_beaches (toLowerCase : String → String) (data : Dataset)
    (searchTerm : String) :
    ((toLowerCase searchTerm = "temples" ∨ toLowerCase searchTerm = "temple") →
      searchResults toLowerCase data searchTerm = data.temples) ∧
    ((toLowerCase searchTerm = "beaches" ∨ toLowerCase searchTerm = "beach") →
      searchResults toLowerCase data searchTerm = data.beaches) := by
  constructor
  · intro h
    rcases h with h | h <;> simp [searchResults, h]
  · intro h
    rcases h with h | h <;> simp [searchResults, h]

/-- C2 at a dataset whose only country is called "Temple", and at the sample
dataset for the beaches. -/
theorem searchTravelData_temples_beaches_witness :
    searchResults asciiLower templeLand "TEMPLE" = [angkor] ∧
    searchResults asciiLower sampleData "Beaches" = [bondi] :=
  ⟨(searchTravelData_temples_beaches asciiLower templeLand "TEMPLE").1 (by decide),
    (searchTravelData_temples_beaches asciiLower sampleData "Beaches").2 (by decide)⟩

/-- C3 as stated fails: a country whose name matches the term is not always
the one whose cities are returned.  In `twinData` the second country matches
"JAPAN" but the first one is found; in `templeLand` the country "Temple"
matches "temple" but the category branch answers with the temples. -/
theorem searchResults_country_name_counterexample :
    ((⟨"japan", [kyoto]⟩ : Country) ∈ twinData.countries ∧
      asciiLower "JAPAN" = asciiLower "japan" ∧
      searchResults asciiLower twinData "JAPAN" ≠ [kyoto]) ∧
    ((⟨"Temple", [kyoto]⟩ : Country) ∈ templeLand.countries ∧
      asciiLower "temple" = asciiLower "Temple" ∧
      searchResults asciiLower templeLand "temple" ≠ [kyoto]) := by
  decide

/-- C3 (amended): when the lower-cased search term is not a category word and
`c` is the first country of the dataset whose lower-cased name equals it, the
result sequence is exactly `c.cities`. -/
theorem searchResults_first_matching_country (toLowerCase : String → String)
    (data : Dataset) (searchTerm : String) (pre : List Country) (c : Country)
    (post : List Country)
    (hsplit : data.countries = pre ++ c :: post)
    (hfirst : ∀ d ∈ pre, toLowerCase d.name ≠ toLowerCase searchTerm)
    (hc : toLowerCase searchTerm = toLowerCase c.name)
    (hcat : isCategoryToken (toLowerCase searchTerm) = false) :
    searchResults toLowerCase data searchTerm = c.cities := by
  rw [searchResults_of_no_category toLowerCase data searchTerm hcat, hsplit,
    find?_first_match _ pre c post]
  · intro d hd
    simpa using hfirst d hd
  · simp [hc]

/-- C3 (amended) at the sample dataset and the term "JAPAN". -/
theorem searchResults_first_matching_country_witness :
    searchResults asciiLower sampleData "JAPAN" = [tokyo, kyoto] :=
  searchResults_first_matching_country asciiLower sampleData "JAPAN"
    [⟨"Australia", [sydney]⟩] ⟨"Japan", [tokyo, kyoto]⟩ [] rfl (by decide) (by decide)
    (by decide)

/-- C4: for a dataset that was fetched and a search term that is neither a
category word nor equal, case-insensitively, to the name of a country, the
result sequence is empty and the handler leaves the results container shown
with the static "no results" message, which is not the error message. -/
theorem searchTravelData_not_found (toLowerCase : String → String) (data : Dataset)
    (searchTerm : String) (p : Page)
    (hcat : isCategoryToken (toLowerCase searchTerm) = false)
    (hname : ∀ c ∈ data.countries, toLowerCase c.name ≠ toLowerCase searchTerm) :
    searchResults toLowerCase data searchTerm = [] ∧
    (searchTravelData toLowerCase (FetchOutcome.ok data) searchTerm p).resultsContainer
      = ⟨noResultsMessage, [], "flex"⟩ ∧
    noResultsMessage ≠ errorMessage := by
  have hfind : data.countries.find? (fun c => toLowerCase c.name == toLowerCase searchTerm)
      = none := by
    rw [List.find?_eq_none]
    intro c hc
    simpa using hname c hc
  have hres : searchResults toLowerCase data searchTerm = [] := by
    rw [searchResults_of_no_category toLowerCase data searchTerm hcat, hfind]
  refine ⟨hres, ?_, by decide⟩
  simp [searchTravelData, hres, displayResults, setInnerHTML, setDisplay, clearResults]

/-- C4 at the sample dataset and the term "Atlantis", on a page that still
shows the cards of an earlier search. -/
theorem searchTravelData_not_found_witness :
    searchResults asciiLower sampleData "Atlantis" = [] ∧
    (searchTravelData asciiLower (FetchOutcome.ok sampleData) "Atlantis" usedPage).resultsContainer
      = ⟨noResultsMessage, [], "flex"⟩ ∧
    noResultsMessage ≠ errorMessage :=
  searchTravelData_not_found asciiLower sampleData "Atlantis" usedPage (by decide) (by decide)

/-! ## Rendering, clearing and the error boundary -/

/-- C5: whatever the results container held and whatever the search term,
when the fetch is rejected, answers with a non-success status or delivers a
body that is not JSON, `searchTravelData` leaves the container with exactly
the generic error message and no card; the same holds for the click handler
on a non-blank term. -/
theorem searchTravelData_fetch_failure (toLowerCase : String → String)
    (outcome : FetchOutcome) (searchTerm : String) (p : Page)
    (hfail : outcome.failed = true) :
    (searchTravelData toLowerCase outcome searchTerm p).resultsContainer.innerHTML
      = errorMessage ∧
    (searchTravelData toLowerCase outcome searchTerm p).resultsContainer.children = [] ∧
    (isBlank p.searchInput = false →
      (searchClick toLowerCase outcome p).resultsContainer.innerHTML = errorMessage ∧
      (searchClick toLowerCase outcome p).resultsContainer.children = []) := by
  have hc : (searchTravelData toLowerCase outcome searchTerm p).resultsContainer
      = ⟨errorMessage, [], "none"⟩ := by
    cases outcome with
    | ok data => simp [FetchOutcome.failed] at hfail
    | rejected => rfl
    | notOk status => rfl
    | badJson => rfl
  have hc2 : (searchTravelData toLowerCase outcome p.searchInput p).resultsContainer
      = ⟨errorMessage, [], "none"⟩ := by
    cases outcome with
    | ok data => simp [FetchOutcome.failed] at hfail
    | rejected => rfl
    | notOk status => rfl
    | badJson => rfl
  refine ⟨by rw [hc], by rw [hc], ?_⟩
  intro hb
  have ht : trim p.searchInput ≠ "" := by
    intro h
    rw [trim_eq_empty_iff, hb] at h
    exact Bool.false_ne_true h
  simp only [searchClick, ht, if_false, hc2, and_self]

/-- C5 at a page showing two cards, the term "Japan" and an HTTP 404. -/
theorem searchTravelData_fetch_failure_witness :
    (searchTravelData asciiLower (FetchOutcome.notOk 404) "Japan" usedPage).resultsContainer.innerHTML
      = errorMessage ∧
    (searchTravelData asciiLower (FetchOutcome.notOk 404) "Japan" usedPage).resultsContainer.children
      = [] ∧
    (searchClick asciiLower (FetchOutcome.notOk 404) usedPage).resultsContainer.innerHTML
      = errorMessage :=
  have h := searchTravelData_fetch_failure asciiLower (FetchOutcome.notOk 404) "Japan"
    usedPage rfl
  ⟨h.1, h.2.1, (h.2.2 (by decide)).1⟩

/-- C6 fails on the code: after typing "Japan" and a search whose fetch
answers HTTP 404, the results container holds the error message but its
`display` is still `none`, so the message is not shown. -/
theorem error_message_left_hidden (toLowerCase : String → String) :
    (run toLowerCase [Op.typeText "Japan", Op.search (FetchOutcome.notOk 404)]
      initialPage).resultsContainer = ⟨errorMessage, [], "none"⟩ ∧
    hasContent ⟨errorMessage, [], "none"⟩ = true ∧
    isShown ⟨errorMessage, [], "none"⟩ = false := by
  refine ⟨?_, by decide, by decide⟩
  have ht : trim "Japan" ≠ "" := by decide
  simp [run, step, searchClick, ht, searchTravelData, setInnerHTML, setDisplay, clearResults,
    initialPage]

/-- Every action other than a search with a failing fetch keeps "shown if
and only if non-empty": the `catch` branch is the only place that breaks it. -/
theorem step_shown_iff_content (toLowerCase : String → String) (p : Page) (op : Op)
    (hop : op.fetchFails = false)
    (hinv : isShown p.resultsContainer = hasContent p.resultsContainer) :
    isShown (step toLowerCase p op).resultsContainer
      = hasContent (step toLowerCase p op).resultsContainer := by
  cases op with
  | typeText s => exact hinv
  | reset => simp [step, resetClick, clearResults, setInnerHTML, setDisplay, isShown, hasContent]
  | search outcome =>
    cases outcome with
    | rejected => simp [Op.fetchFails, FetchOutcome.failed] at hop
    | notOk status => simp [Op.fetchFails, FetchOutcome.failed] at hop
    | badJson => simp [Op.fetchFails, FetchOutcome.failed] at hop
    | ok data =>
      by_cases ht : trim p.searchInput = ""
      · simp [step, searchClick, ht, clearResults, setInnerHTML, setDisplay, isShown, hasContent]
      · by_cases hr : searchResults toLowerCase data p.searchInput = []
        · simp only [step, searchClick, ht, if_false, searchTravelData, hr, displayResults_nil]
          decide
        · simp only [step, searchClick, ht, if_false, searchTravelData,
            displayResults_of_ne_nil _ _ hr]
          cases hs : searchResults toLowerCase data p.searchInput with
          | nil => exact absurd hs hr
          | cons a l => simp [isShown, hasContent]

/-- In every state reached from the initial page by actions none of which is
a search with a failing fetch, the container is shown exactly when it has
content. -/
theorem run_shown_iff_content (toLowerCase : String → String) (ops : List Op)
    (hops : ∀ op ∈ ops, Op.fetchFails op = false) :
    isShown (run toLowerCase ops initialPage).resultsContainer
      = hasContent (run toLowerCase ops initialPage).resultsContainer := by
  have key : ∀ (l : List Op) (p : Page), (∀ op ∈ l, Op.fetchFails op = false) →
      isShown p.resultsContainer = hasContent p.resultsContainer →
      isShown (run toLowerCase l p).resultsContainer
        = hasContent (run toLowerCase l p).resultsContainer := by
    intro l
    induction l with
    | nil => intro p _ hp; exact hp
    | cons op l ih =>
      intro p hl hp
      have h1 := step_shown_iff_content toLowerCase p op (hl op (List.mem_cons_self _ _)) hp
      exact ih (step toLowerCase p op) (fun o ho => hl o (List.mem_cons_of_mem _ ho)) h1
  exact key ops initialPage hops (by decide)

/-- C7: when the text of the search field is empty or white space only, the
click handler of the search button leaves the results container empty and
hidden, issues no fetch and changes nothing else. -/
theorem searchClick_blank (toLowerCase : String → String) (outcome : FetchOutcome)
    (p : Page) (h : isBlank p.searchInput = true) :
    searchClick toLowerCase outcome p = ⟨p.searchInput, ⟨"", [], "none"⟩, p.fetches⟩ := by
  have ht : trim p.searchInput = "" := (trim_eq_empty_iff _).2 h
  simp [searchClick, ht, setInnerHTML, setDisplay, clearResults]

/-- C7 at a page showing two cards whose field holds blanks, a tab and a
line feed. -/
theorem searchClick_blank_witness :
    isBlank "  \t\n" = true ∧
    searchClick asciiLower (FetchOutcome.ok sampleData)
      ⟨"  \t\n", ⟨"", [createCard tokyo, createCard kyoto], "flex"⟩, 1⟩
      = ⟨"  \t\n", ⟨"", [], "none"⟩, 1⟩ :=
  ⟨by decide,
    searchClick_blank asciiLower (FetchOutcome.ok sampleData)
      ⟨"  \t\n", ⟨"", [createCard tokyo, createCard kyoto], "flex"⟩, 1⟩ (by decide)⟩

/-- C8 as stated fails for records whose fields hold markup characters: the
script inserts them unescaped.  For the record named `A "B"` the card's image
has the alt text `A `, not the name; for the record named `a<b` the title
holds the text `a` followed by an element `b<`. -/
theorem displayResults_card_counterexample :
    ((displayResults [quoted] ⟨"", [], "none"⟩).children.map
        (fun card => renderedCard card.innerHTML)
      = [some ⟨some "a.jpg", some "A ", "A \"B\"", "Quoted name"⟩] ∧
      quoted.name ≠ "A ") ∧
    ((displayResults [angled] ⟨"", [], "none"⟩).children.map
        (fun card => (tokenize card.innerHTML).map (fun tokens => (tokens.drop 5).take 3))
      = [some [Token.tag ⟨false, "h2".data, [], false⟩, Token.text "a".data,
          Token.tag ⟨false, "b<".data, [("h2".data, [])], false⟩]] ∧
      angled.name.data ≠ "a".data) := by
  decide

/-- C8 (amended): on a non-empty sequence `displayResults` discards what the
container held and leaves it shown with one card per record in input order;
the i-th card is a `result-card` element whose markup is the template with
the i-th record's `imageUrl`, `name` and `description` inserted unescaped,
and it shows them as image source, alt text, title and description whenever
`imageUrl` and `name` can stand in a quoted attribute and `name` and
`description` can stand as text.  On the empty sequence the container is left
shown with only the static "no results" message and no card. -/
theorem displayResults_spec (results : List Place) (c : Container) :
    (results ≠ [] →
      (displayResults results c).display = "flex" ∧
      (displayResults results c).innerHTML = "" ∧
      (displayResults results c).children.length = results.length ∧
      ∀ (i : Nat) (hi : i < results.length),
        (displayResults results c).children[i]? =
          some ⟨"result-card",
            "\n                <img src=\"" ++ results[i].imageUrl ++ "\" alt=\"" ++
            results[i].name ++
            "\" onerror=\"this.src=\x27https://placehold.co/600x400/000000/FFFFFF?text=Image+Not+Found\x27\" />\n                <div class=\"card-text\">\n                    <h2>" ++
            results[i].name ++ "</h2>\n                    <p>" ++ results[i].description ++
            "</p>\n                </div>\n            "⟩ ∧
        (attrSafe results[i].imageUrl = true → attrSafe results[i].name = true →
          textSafe results[i].name = true → textSafe results[i].description = true →
          ((displayResults results c).children[i]?).bind
              (fun card => renderedCard card.innerHTML)
            = some ⟨some results[i].imageUrl, some results[i].name, results[i].name,
                results[i].description⟩)) ∧
    displayResults [] c = ⟨noResultsMessage, [], "flex"⟩ := by
  refine ⟨?_, displayResults_nil c⟩
  intro h
  rw [displayResults_of_ne_nil results c h]
  refine ⟨rfl, rfl, by simp, ?_⟩
  intro i hi
  have hchild : (results.map createCard)[i]? = some (createCard results[i]) := by
    simp [hi]
  refine ⟨by simp [hi, createCard, cardContent], ?_⟩
  intro h1 h2 h3 h4
  simp only [hchild, Option.some_bind]
  exact renderedCard_cardContent results[i] h1 h2 h3 h4

/-- C8 (amended) at a container showing the error message, hidden, and two
records. -/
theorem displayResults_spec_witness :
    [tokyo, kyoto] ≠ [] ∧
    (displayResults [tokyo, kyoto] ⟨errorMessage, [], "none"⟩).display = "flex" ∧
    (displayResults [tokyo, kyoto] ⟨errorMessage, [], "none"⟩).innerHTML = "" ∧
    (displayResults [tokyo, kyoto] ⟨errorMessage, [], "none"⟩).children.length = 2 ∧
    ((displayResults [tokyo, kyoto] ⟨errorMessage, [], "none"⟩).children[1]?).bind
        (fun card => renderedCard card.innerHTML)
      = some ⟨some "kyoto.jpg", some "Kyoto", "Kyoto", "Old capital"⟩ :=
  have h := (displayResults_spec [tokyo, kyoto] ⟨errorMessage, [], "none"⟩).1 (by decide)
  ⟨by decide, h.1, h.2.1, h.2.2.1,
    (h.2.2.2 1 (by decide)).2 (by decide) (by decide) (by decide) (by decide)⟩

/-- C9: from any page state the reset handler leaves the search field empty
and the results container empty and hidden, and a second reset changes
nothing more. -/
theorem resetClick_spec (p : Page) :
    resetClick p = ⟨"", ⟨"", [], "none"⟩, p.fetches⟩ ∧
    resetClick (resetClick p) = resetClick p := by
  constructor <;> simp [resetClick, setInnerHTML, setDisplay, clearResults]

/-- C10: the term is matched untrimmed.  When no country name begins or ends
with white space and the search term begins or ends with a white space
character, the result sequence is empty; on such a term that is not blank the
click handler, given a fetched dataset, renders the "no results" message. -/
theorem searchResults_padded_term (toLowerCase : String → String)
    (hlower : KeepsEdgeWhiteSpace toLowerCase) (data : Dataset) (searchTerm : String)
    (hnames : ∀ c ∈ data.countries,
      startsWithWhiteSpace c.name = false ∧ endsWithWhiteSpace c.name = false)
    (hpad : startsWithWhiteSpace searchTerm = true ∨ endsWithWhiteSpace searchTerm = true) :
    searchResults toLowerCase data searchTerm = [] ∧
    ∀ p : Page, p.searchInput = searchTerm → isBlank searchTerm = false →
      (searchClick toLowerCase (FetchOutcome.ok data) p).resultsContainer
        = ⟨noResultsMessage, [], "flex"⟩ := by
  have hpad2 : startsWithWhiteSpace (toLowerCase searchTerm) = true ∨
      endsWithWhiteSpace (toLowerCase searchTerm) = true := by
    rw [hlower.head, hlower.last]; exact hpad
  have hne : ∀ t : String, startsWithWhiteSpace t = false → endsWithWhiteSpace t = false →
      t ≠ toLowerCase searchTerm := by
    intro t h1 h2 h
    rw [← h, h1, h2] at hpad2
    simp at hpad2
  have hcat : isCategoryToken (toLowerCase searchTerm) = false := by
    simp only [isCategoryToken, Bool.or_eq_false_iff, decide_eq_false_iff_not]
    refine ⟨⟨⟨⟨⟨?_, ?_⟩, ?_⟩, ?_⟩, ?_⟩, ?_⟩ <;>
      exact fun h => hne _ (by decide) (by decide) h.symm
  have hname : ∀ c ∈ data.countries, toLowerCase c.name ≠ toLowerCase searchTerm := by
    intro c hc
    obtain ⟨h1, h2⟩ := hnames c hc
    exact hne _ (by rw [hlower.head, h1]) (by rw [hlower.last, h2])
  have hfind : data.countries.find? (fun c => toLowerCase c.name == toLowerCase searchTerm)
      = none := by
    rw [List.find?_eq_none]
    intro c hc
    simpa using hname c hc
  have hres : searchResults toLowerCase data searchTerm = [] := by
    rw [searchResults_of_no_category toLowerCase data searchTerm hcat, hfind]
  refine ⟨hres, ?_⟩
  intro p hp hb
  subst hp
  have ht : trim p.searchInput ≠ "" := by
    intro h
    rw [trim_eq_empty_iff, hb] at h
    exact Bool.false_ne_true h
  simp only [searchClick, ht, if_false, searchTravelData, hres, displayResults_nil]

/-- C10 at the sample dataset and the terms " beaches" and "Japan ". -/
theorem searchResults_padded_term_witness :
    searchResults asciiLower sampleData " beaches" = [] ∧
    searchResults asciiLower sampleData "Japan " = [] :=
  ⟨(searchResults_padded_term asciiLower asciiLower_keepsEdgeWhiteSpace sampleData " beaches"
      (by decide) (by decide)).1,
    (searchResults_padded_term asciiLower asciiLower_keepsEdgeWhiteSpace sampleData "Japan "
      (by decide) (by decide)).1⟩

end TravelRecommendation
